import Mathlib

/-!
Verification of the ECAT→NIfTI conversion core (`code/python/ecat2nii.py`)
of the openneuropet/BIDS-converter repository.

The Python function `ecat2nii` is shallowly embedded here:

* dictionaries `main_header` / `sub_headers[i]` become the structures
  `MainHeader` / `SubHeader` (only the fields the function reads);
* the 4-D numpy voxel array becomes `Tensor` (shape plus an index function
  into rational values; numpy float arithmetic is modelled over `ℚ`);
* the global two-pass rescale (lines 94-100) becomes `intensityRescaler`
  over the flattened element list of the assembled frame tensor;
* the nibabel header object becomes the `NiftiHeader` structure whose
  fields are exactly the ones the source touches.  Line 156 writes to the
  misspelled key `qoffset_Z` — not a NIfTI-1 field name, so the nibabel
  header (a fixed-field numpy structured array) raises an uncaught
  `KeyError` there: the conversion aborts, lines 159-187 never execute,
  and the function never returns.  The model reflects this: the pipeline
  yields `ConvErr.keyErrorQoffsetZ` on every run that reaches header
  synthesis, and `headerStateBeforeCrash` captures the header state after
  the assignments of lines 104-155, just before the fatal write;
* `raise` statements and the numpy/nibabel exceptions become
  `Except ConvErr` errors.
-/

namespace EcatToNii

/-- Fields of the ECAT main-header dictionary read by `ecat2nii`.
`SW_VERSION` is accessed with `main_header.get(SW_VERSION, 0)`, so it is
`Option` valued; the other keys are indexed directly. -/
structure MainHeader where
  NUM_FRAMES : Nat
  SW_VERSION : Option Int
  ECAT_CALIBRATION_FACTOR : ℚ
  deriving DecidableEq

/-- Fields of one ECAT sub-header dictionary read by `ecat2nii`. -/
structure SubHeader where
  X_DIMENSION : Nat
  Y_DIMENSION : Nat
  Z_DIMENSION : Nat
  X_PIXEL_SIZE : ℚ
  Y_PIXEL_SIZE : ℚ
  Z_PIXEL_SIZE : ℚ
  SCALE_FACTOR : ℚ
  FRAME_START_TIME : ℚ
  FRAME_DURATION : ℚ
  PROMPT_RATE : ℚ
  RANDOM_RATE : ℚ
  deriving DecidableEq

instance : Inhabited SubHeader :=
  ⟨⟨0, 0, 0, 0, 0, 0, 0, 0, 0, 0, 0⟩⟩

/-- The 4-D voxel array `data`: its shape `(sx, sy, sz, sf)` and an index
function giving the element at `[x, y, z, f]`. -/
structure Tensor where
  sx : Nat
  sy : Nat
  sz : Nat
  sf : Nat
  val : Nat → Nat → Nat → Nat → ℚ

/-- The `data.shape` tuple of the voxel tensor. -/
def Tensor.shape (t : Tensor) : Nat × Nat × Nat × Nat :=
  (t.sx, t.sy, t.sz, t.sf)

/-- An affine matrix as passed to `nibabel.Nifti1Image(..., affine=...)`;
rows of rationals. -/
abbrev Affine := List (List ℚ)

/-- Error taxonomy of the conversion.  `invalidInputCombination` is the
`raise Exception` of lines 34-38; `shapeMismatch` is the `raise` of lines
59-61 and carries (expected-from-headers, got-from-data); the remaining
constructors model Python-level failures: `typeErrorSplitextNone` is the
`TypeError` that `os.path.splitext(None)` raises on line 20 and
`indexErrorNoSubheaders` the `IndexError` of `sub_headers[0]` on an empty
list.  `keyErrorQoffsetZ` is the uncaught `KeyError` raised on line 156
by the assignment to the nonexistent header field `qoffset_Z`, which
aborts every run that reaches header synthesis.  `numpyPipelineError`
stands for the numpy errors that can abort the frame loop or the
reduction even earlier (sub-header `IndexError` on line 80, frame-slot
`IndexError` or broadcast `ValueError` on line 79, zero-size-reduction
`ValueError` on line 94); no claim distinguishes between them.
`emptyOrZeroImage` is the error named by the specification for an
all-zero image; the source contains no raise of this kind, and the
constructor exists so that theorems can state that it is never produced. -/
inductive ConvErr where
  | invalidInputCombination
  | typeErrorSplitextNone
  | shapeMismatch (expected got : Nat × Nat × Nat × Nat)
  | emptyOrZeroImage
  | indexErrorNoSubheaders
  | keyErrorQoffsetZ
  | numpyPipelineError
  deriving DecidableEq

/-! ### List max/min, modelling `ndarray.max()` / `ndarray.min()`

numpy reduces over all elements with no seed; on the element lists used
here this is a fold of `max` (resp. `min`) seeded with the first element.
The `0` result on `[]` is never relied upon (numpy would raise there). -/

/-- Model of `xs.max()` over a flattened element list. -/
def maxl : List ℚ → ℚ
  | [] => 0
  | x :: xs => xs.foldl max x

/-- Model of `xs.min()` over a flattened element list. -/
def minl : List ℚ → ℚ
  | [] => 0
  | x :: xs => xs.foldl min x

/-! ### IntensityRescaler (lines 94-100)

The rescaler is stated over the flattened element list of the assembled
`img_temp` tensor (the order of flattening is irrelevant: only max/min
reductions and per-element maps are taken). -/

/-- Line 95: `img_temp = img_temp / (max_image * 32767)`. -/
def firstPass (elems : List ℚ) : List ℚ :=
  elems.map fun v => v / (maxl elems * 32767)

/-- Lines 94-100: the global two-pass rescale.  Returns the rescaled
element list (`img_temp` after the conditional second pass) and the scale
factor `sca`.  `max_image` is `maxl elems` (line 94), the first pass is
`firstPass` (line 95), `sca = max_image / 32767` (line 96), `min_image`
is `minl (firstPass elems)` (line 97), and the second pass of lines
98-100 fires only when `min_image < -32768`. -/
def intensityRescaler (elems : List ℚ) : List ℚ × ℚ :=
  if minl (firstPass elems) < -32768 then
    ((firstPass elems).map fun v => v / (minl (firstPass elems) * (-32768)),
      maxl elems / 32767 * minl (firstPass elems) / (-32768))
  else
    (firstPass elems, maxl elems / 32767)

/-! ### HeaderSynthesizer (lines 104-174) -/

/-- Line 117-125: `pixdim = [1, X*10, Y*10, Z*10, 0, 0, 0, 0]`. -/
def pixdimOf (sub0 : SubHeader) : List ℚ :=
  [1, sub0.X_PIXEL_SIZE * 10, sub0.Y_PIXEL_SIZE * 10, sub0.Z_PIXEL_SIZE * 10, 0, 0, 0, 0]

/-- Lines 150-152: the x translation offset. -/
def qoffsetXOf (sub0 : SubHeader) : ℚ :=
  -1 * ((sub0.X_DIMENSION * sub0.X_PIXEL_SIZE * 10 / 2) - sub0.X_PIXEL_SIZE * 5)

/-- Lines 153-155: the y translation offset. -/
def qoffsetYOf (sub0 : SubHeader) : ℚ :=
  -1 * ((sub0.Y_DIMENSION * sub0.Y_PIXEL_SIZE * 10 / 2) - sub0.Y_PIXEL_SIZE * 5)

/-- Lines 156-158: the z translation offset (the value the source computes
for the assignment to the misspelled key `qoffset_Z`). -/
def qoffsetZOf (sub0 : SubHeader) : ℚ :=
  -1 * ((sub0.Z_DIMENSION * sub0.Z_PIXEL_SIZE * 10 / 2) - sub0.Z_PIXEL_SIZE * 5)

/-- The NIfTI-1 header fields that `ecat2nii` touches: the fields the
assignments of lines 106-155 write before the fatal line-156 write, plus
`qoffset_z` and the `srow` rows, which the `Nifti1Image` constructor of
line 104 initializes (from the supplied affine when there is one,
otherwise to the nibabel defaults of zero) and which the source never
successfully overwrites — the `srow` assignments of lines 159-161 sit
after the line-156 `KeyError` and never execute. -/
structure NiftiHeader where
  sizeof_hdr : ℚ
  intent_p1 : ℚ
  intent_p2 : ℚ
  intent_p3 : ℚ
  pixdim : List ℚ
  vox_offset : ℚ
  scl_inter : ℚ
  slice_end : ℚ
  slice_code : ℚ
  xyzt_units : ℚ
  cal_max : ℚ
  cal_min : ℚ
  slice_duration : ℚ
  toffset : ℚ
  descrip : String
  qform_code : ℚ
  sform_code : ℚ
  quatern_b : ℚ
  quatern_c : ℚ
  quatern_d : ℚ
  qoffset_x : ℚ
  qoffset_y : ℚ
  qoffset_z : ℚ
  srow_x : List ℚ
  srow_y : List ℚ
  srow_z : List ℚ
  deriving DecidableEq

/-- Entry `(i, j)` of an affine matrix (nibabel stores a 4×4 array). -/
def affineEntry (A : Affine) (i j : Nat) : ℚ :=
  (A.getD i []).getD j 0

/-- Row `i` of an affine matrix, as the four entries the nibabel header
stores in the corresponding `srow` field. -/
def affineRow (A : Affine) (i : Nat) : List ℚ :=
  [affineEntry A i 0, affineEntry A i 1, affineEntry A i 2, affineEntry A i 3]

/-- The header state reached after the assignments of lines 104-155, i.e.
just before the fatal line-156 write to the nonexistent field
`qoffset_Z`.  `psMin`/`psMax` are `properly_scaled.min()` /
`properly_scaled.max()` (the source assigns them to `cal_max` / `cal_min`
in that swapped order, lines 134-135).  `xyzt_units` is the `10` of line
133: the `set_xyzt_units(mm, unknown)` call of line 174 is never reached.
`qoffset_z` and the `srow` rows hold what the `Nifti1Image` constructor of
line 104 put there: when an affine is supplied the constructor writes it
into the sform/qform header fields (`srow` rows and `qoffset`
translations); with no affine they stay at the nibabel defaults of zero.
Lines 150-155 then overwrite `qoffset_x` and `qoffset_y` with the derived
offsets, while the `srow` assignments of lines 159-161 never execute. -/
def headerStateBeforeCrash (sub0 : SubHeader) (affine : Option Affine)
    (psMin psMax : ℚ) : NiftiHeader where
  sizeof_hdr := 348
  intent_p1 := 0
  intent_p2 := 0
  intent_p3 := 0
  pixdim := pixdimOf sub0
  vox_offset := 352
  scl_inter := 0
  slice_end := 0
  slice_code := 0
  xyzt_units := 10
  cal_max := psMin
  cal_min := psMax
  slice_duration := 0
  toffset := 0
  descrip := "OpenNeuroPET ecat2nii.py conversion"
  qform_code := 0
  sform_code := 1
  quatern_b := 0
  quatern_c := 0
  quatern_d := 0
  qoffset_x := qoffsetXOf sub0
  qoffset_y := qoffsetYOf sub0
  qoffset_z :=
    match affine with
    | none => 0
    | some A => affineEntry A 2 3
  srow_x :=
    match affine with
    | none => [0, 0, 0, 0]
    | some A => affineRow A 0
  srow_y :=
    match affine with
    | none => [0, 0, 0, 0]
    | some A => affineRow A 1
  srow_z :=
    match affine with
    | none => [0, 0, 0, 0]
    | some A => affineRow A 2

/-! ### Per-frame timing and count-rate sequences (lines 77-91) -/

/-- Line 81: `start.append(FRAME_START_TIME * 60)` for each frame index in
`range(img_shape[3])`. -/
def startOf (shs : List SubHeader) (nFrames : Nat) : List ℚ :=
  (List.range nFrames).map fun i => (shs.getD i default).FRAME_START_TIME * 60

/-- Line 82: `delta.append(FRAME_DURATION * 60)`. -/
def deltaOf (shs : List SubHeader) (nFrames : Nat) : List ℚ :=
  (List.range nFrames).map fun i => (shs.getD i default).FRAME_DURATION * 60

/-- Lines 84-91: prompts, gated on `main_header.get(SW_VERSION, 0) >= 73`. -/
def promptsOf (mh : MainHeader) (shs : List SubHeader) (nFrames : Nat) : List ℚ :=
  (List.range nFrames).map fun i =>
    if 73 ≤ mh.SW_VERSION.getD 0 then
      (shs.getD i default).PROMPT_RATE * (shs.getD i default).FRAME_DURATION * 60
    else 0

/-- Lines 84-91: randoms, gated on the same software-version test. -/
def randomsOf (mh : MainHeader) (shs : List SubHeader) (nFrames : Nat) : List ℚ :=
  (List.range nFrames).map fun i =>
    if 73 ≤ mh.SW_VERSION.getD 0 then
      (shs.getD i default).RANDOM_RATE * (shs.getD i default).FRAME_DURATION * 60
    else 0

/-! ### ShapeReconciler (lines 48-61) -/

/-- Lines 54-61: `single_frame` is set when `img_shape[3] == 1` and the
first two dimensions agree; the `raise` fires when the shapes differ and
`single_frame` is not set.  The error carries (shape-from-headers,
img-shape), the two shapes interpolated into the exception message. -/
def shapeReconciler (imgShape declared : Nat × Nat × Nat × Nat) : Except ConvErr Unit :=
  if imgShape ≠ declared ∧
      ¬(imgShape.2.2.2 = 1 ∧ imgShape.1 = declared.1 ∧ imgShape.2.1 = declared.2.1) then
    .error (.shapeMismatch declared imgShape)
  else
    .ok ()

/-- Reversal of the X/Y/Z entries of a declared shape, keeping the frame
count (used to state the reversal property of the specification). -/
def reverseXYZ (d : Nat × Nat × Nat × Nat) : Nat × Nat × Nat × Nat :=
  (d.2.2.1, d.2.1, d.1, d.2.2.2)

/-! ### ConversionOrchestrator -/

/-- The keyword arguments of `ecat2nii` relevant to the claims.
`ecat_main_header` / `ecat_subheaders` / `ecat_pixel_data` are `None` or a
value of the expected Python type (`dict` / `list` / `ndarray`; the
type-checks of line 30-31 are the presence tests here); `nifti_file`
defaults to the empty string; `TimeZero` arrives via `**kwargs`. -/
structure Args where
  ecat_main_header : Option MainHeader
  ecat_subheaders : Option (List SubHeader)
  ecat_pixel_data : Option Tensor
  ecat_file : Option String
  nifti_file : String
  affine : Option Affine
  timeZero : Option String

/-- Python truthiness of the `ecat_file` argument (line 27 tests
`... and ecat_file`): `None` and the empty string are falsy. -/
def fileTruthy : Option String → Bool
  | none => false
  | some s => !(s == "")

/-- Python truthiness of `kwargs.get(TimeZero, None)` (line 41). -/
def timeZeroTruthy : Option String → Bool
  | none => false
  | some s => !(s == "")

/-- Model of `os.path.splitext(f)[0]`, for plain file names: everything before the
last dot, or the whole string when there is no dot.  (The directory-aware
corner cases of `os.path.splitext` are irrelevant to every claim.) -/
def splitextRoot (s : String) : String :=
  let parts := s.splitOn "."
  if parts.length ≤ 1 then s else String.intercalate "." parts.dropLast

/-- Lines 19-22: when no `nifti_file` is given, derive it from
`ecat_file`.  `os.path.splitext(None)` raises a `TypeError`, which is what
happens when neither path is supplied. -/
def resolveNiftiFile (ecat_file : Option String) (nifti_file : String) : Except ConvErr String :=
  if nifti_file = "" then
    match ecat_file with
    | none => .error .typeErrorSplitextNone
    | some f => .ok (splitextRoot f ++ ".nii")
  else
    .ok nifti_file

/-- The two accepted input alternatives of lines 27-38. -/
inductive InputSource where
  | fromFile (f : String)
  | parsed (mh : MainHeader) (shs : List SubHeader) (px : Tensor)

/-- Lines 27-38: branch 1 requires all three parsed arguments `None` and a
truthy `ecat_file`; branch 2 requires `ecat_file is None` and all three
parsed arguments present with their expected types; everything else is the
`raise Exception` of lines 34-38. -/
def resolveInputs (a : Args) : Except ConvErr InputSource :=
  match a.ecat_main_header, a.ecat_subheaders, a.ecat_pixel_data, a.ecat_file with
  | none, none, none, some f =>
    if f = "" then .error .invalidInputCombination else .ok (.fromFile f)
  | some mh, some shs, some px, none => .ok (.parsed mh shs px)
  | _, _, _, _ => .error .invalidInputCombination

/-- Holds exactly on the argument combinations that lines 27-38 accept. -/
def validCombo (a : Args) : Bool :=
  match a.ecat_main_header, a.ecat_subheaders, a.ecat_pixel_data, a.ecat_file with
  | none, none, none, some f => !(f == "")
  | some _, some _, some _, none => true
  | _, _, _, _ => false

/-- The result a completed conversion would return: the `img_nii` (header,
`properly_scaled` data flattened to its element list, shape, the affine
passed to the `Nifti1Image` constructor) together with the retained
per-frame sequences and the advisory-log flag of lines 40-45.  The
current source never produces such a value — every run that reaches
header synthesis aborts at the line-156 `KeyError` — so this type only
shapes the success branch of the `Except` that reality never takes. -/
structure ConvResult where
  niftiFile : String
  header : NiftiHeader
  dataElems : List ℚ
  dataShape : Nat × Nat × Nat × Nat
  imgAffine : Option Affine
  start : List ℚ
  delta : List ℚ
  prompts : List ℚ
  randoms : List ℚ
  timeZeroMissingLogged : Bool
  deriving DecidableEq

/-- The conversion pipeline on a pre-parsed triple (lines 40-187 with the
`elif` branch of line 30 taken).  `sub_headers[0]` on an empty list is an
`IndexError`.  After the shape check, lines 64-102 run the frame loop and
the two-pass rescale (the per-frame sequences are `startOf` / `deltaOf` /
`promptsOf` / `randomsOf` and the rescale is `intensityRescaler`; all of
it is modelled by those standalone definitions), and lines 104-155 build
`headerStateBeforeCrash`.  Line 156 then writes to the nonexistent header
field `qoffset_Z` and raises an uncaught `KeyError`: lines 159-187 never
execute, nothing is saved or returned, and every computed value is lost to
the exception — so each shape-accepted run ends in an error.  The guard
below separates the runs that reach line 156 (`keyErrorQoffsetZ`) from
those the frame loop or the reduction aborts even earlier
(`numpyPipelineError`): a frame count beyond the sub-header list (line 80,
`sub_headers[index]`), a frame count beyond `NUM_FRAMES` or a data slab
whose Z extent is neither the declared Z nor 1 and so cannot broadcast
into `img_temp` (line 79), or a zero-size `img_temp` whose `max`
reduction fails (line 94).  The affine argument is consumed by the
line-104 constructor (its effect on the header state is captured by
`headerStateBeforeCrash`), the output path only by the unreached
`nibabel.save` of line 177, and `TimeZero` only by the advisory print of
lines 40-45; none of them can reach a return value. -/
def ecat2niiParsed (mh : MainHeader) (shs : List SubHeader) (data : Tensor)
    (_affine : Option Affine) (_niftiFile : String) (_timeZero : Option String) :
    Except ConvErr ConvResult :=
  match shs with
  | [] => .error .indexErrorNoSubheaders
  | sub0 :: _ =>
    let imgShape := data.shape
    let declared := (sub0.X_DIMENSION, sub0.Y_DIMENSION, sub0.Z_DIMENSION, mh.NUM_FRAMES)
    match shapeReconciler imgShape declared with
    | .error e => .error e
    | .ok _ =>
      if data.sf ≤ shs.length ∧ data.sf ≤ mh.NUM_FRAMES ∧
          (data.sz = sub0.Z_DIMENSION ∨ data.sz = 1) ∧
          0 < sub0.X_DIMENSION ∧ 0 < sub0.Y_DIMENSION ∧ 0 < sub0.Z_DIMENSION ∧
          0 < mh.NUM_FRAMES then
        .error .keyErrorQoffsetZ
      else
        .error .numpyPipelineError

/-- Whether the conversion returned normally with a completed result.
The source never does: line 156 raises before any return. -/
def convCompleted : Except ConvErr ConvResult → Bool
  | .ok _ => true
  | .error _ => false

/-- Outcome of the full call: either the conversion ran on a pre-parsed
triple, or the arguments selected the `read_ecat(ecat_file)` branch, whose
reader lives in `read_ecat.py` (not part of the sources verified here) and
is left as an explicit outcome. -/
inductive ConvOutcome where
  | wouldReadFile (f nifti : String)
  | converted (r : ConvResult)

/-- The full `ecat2nii` call in source order: output-path resolution
(lines 19-24) runs first, then the input-combination dispatch (lines
27-38), then the conversion proper. -/
def ecat2nii (a : Args) : Except ConvErr ConvOutcome :=
  match resolveNiftiFile a.ecat_file a.nifti_file with
  | .error e => .error e
  | .ok nf =>
    match resolveInputs a with
    | .error e => .error e
    | .ok (.fromFile f) => .ok (.wouldReadFile f nf)
    | .ok (.parsed mh shs px) =>
      match ecat2niiParsed mh shs px a.affine nf a.timeZero with
      | .error e => .error e
      | .ok r => .ok (.converted r)

/-- Everything the caller gets back except the advisory-log flag: the
header and rescaled data (and the other returned artefacts). -/
def resultCore (r : ConvResult) :
    String × NiftiHeader × List ℚ × (Nat × Nat × Nat × Nat) × Option Affine ×
      List ℚ × List ℚ × List ℚ × List ℚ :=
  (r.niftiFile, r.header, r.dataElems, r.dataShape, r.imgAffine,
    r.start, r.delta, r.prompts, r.randoms)

/-! ### Helper lemmas about `maxl` / `minl` -/

lemma mul_max_q (k a b : ℚ) (hk : 0 ≤ k) : k * max a b = max (k * a) (k * b) := by
  rcases le_total a b with h | h
  · rw [max_eq_right h, max_eq_right (mul_le_mul_of_nonneg_left h hk)]
  · rw [max_eq_left h, max_eq_left (mul_le_mul_of_nonneg_left h hk)]

lemma mul_min_q (k a b : ℚ) (hk : 0 ≤ k) : k * min a b = min (k * a) (k * b) := by
  rcases le_total a b with h | h
  · rw [min_eq_left h, min_eq_left (mul_le_mul_of_nonneg_left h hk)]
  · rw [min_eq_right h, min_eq_right (mul_le_mul_of_nonneg_left h hk)]

lemma foldl_max_map_mul (k : ℚ) (hk : 0 ≤ k) :
    ∀ (xs : List ℚ) (a : ℚ), (xs.map fun v => k * v).foldl max (k * a) = k * xs.foldl max a := by
  intro xs
  induction xs with
  | nil => intro a; simp
  | cons x xs ih =>
    intro a
    simp only [List.map_cons, List.foldl_cons]
    rw [← mul_max_q k a x hk, ih]

lemma foldl_min_map_mul (k : ℚ) (hk : 0 ≤ k) :
    ∀ (xs : List ℚ) (a : ℚ), (xs.map fun v => k * v).foldl min (k * a) = k * xs.foldl min a := by
  intro xs
  induction xs with
  | nil => intro a; simp
  | cons x xs ih =>
    intro a
    simp only [List.map_cons, List.foldl_cons]
    rw [← mul_min_q k a x hk, ih]

lemma maxl_map_mul (k : ℚ) (hk : 0 ≤ k) (xs : List ℚ) :
    maxl (xs.map fun v => k * v) = k * maxl xs := by
  cases xs with
  | nil => simp [maxl]
  | cons x xs => simpa [maxl] using foldl_max_map_mul k hk xs x

lemma minl_map_mul (k : ℚ) (hk : 0 ≤ k) (xs : List ℚ) :
    minl (xs.map fun v => k * v) = k * minl xs := by
  cases xs with
  | nil => simp [minl]
  | cons x xs => simpa [minl] using foldl_min_map_mul k hk xs x

lemma minl_map_div (c : ℚ) (hc : 0 ≤ c) (xs : List ℚ) :
    minl (xs.map fun v => v / c) = minl xs / c := by
  simp only [div_eq_inv_mul]
  exact minl_map_mul c⁻¹ (inv_nonneg.mpr hc) xs

lemma le_foldl_max (xs : List ℚ) : ∀ a : ℚ, a ≤ xs.foldl max a := by
  induction xs with
  | nil => intro a; simp
  | cons x xs ih => intro a; exact le_trans (le_max_left a x) (ih (max a x))

lemma mem_le_foldl_max (xs : List ℚ) : ∀ (a v : ℚ), v ∈ xs → v ≤ xs.foldl max a := by
  induction xs with
  | nil => intro a v h; cases h
  | cons x xs ih =>
    intro a v h
    rcases List.mem_cons.mp h with rfl | h
    · exact le_trans (le_max_right a v) (le_foldl_max xs (max a v))
    · exact ih (max a x) v h

lemma le_maxl_of_mem {xs : List ℚ} {v : ℚ} (h : v ∈ xs) : v ≤ maxl xs := by
  cases xs with
  | nil => cases h
  | cons x xs =>
    rcases List.mem_cons.mp h with rfl | h
    · exact le_foldl_max xs v
    · exact mem_le_foldl_max xs x v h

lemma foldl_min_le (xs : List ℚ) : ∀ a : ℚ, xs.foldl min a ≤ a := by
  induction xs with
  | nil => intro a; simp
  | cons x xs ih => intro a; exact le_trans (ih (min a x)) (min_le_left a x)

lemma foldl_min_le_mem (xs : List ℚ) : ∀ (a v : ℚ), v ∈ xs → xs.foldl min a ≤ v := by
  induction xs with
  | nil => intro a v h; cases h
  | cons x xs ih =>
    intro a v h
    rcases List.mem_cons.mp h with rfl | h
    · exact le_trans (foldl_min_le xs (min a v)) (min_le_right a v)
    · exact ih (min a x) v h

lemma minl_le_of_mem {xs : List ℚ} {v : ℚ} (h : v ∈ xs) : minl xs ≤ v := by
  cases xs with
  | nil => cases h
  | cons x xs =>
    rcases List.mem_cons.mp h with rfl | h
    · exact foldl_min_le xs v
    · exact foldl_min_le_mem xs x v h

lemma le_foldl_min (b : ℚ) (xs : List ℚ) :
    ∀ a : ℚ, b ≤ a → (∀ v ∈ xs, b ≤ v) → b ≤ xs.foldl min a := by
  induction xs with
  | nil => intro a ha _; simpa using ha
  | cons x xs ih =>
    intro a ha hm
    exact ih (min a x) (le_min ha (hm x (List.mem_cons_self x xs))) fun v hv =>
      hm v (List.mem_cons_of_mem x hv)

lemma le_minl (b : ℚ) (xs : List ℚ) (hne : xs ≠ []) (hm : ∀ v ∈ xs, b ≤ v) :
    b ≤ minl xs := by
  cases xs with
  | nil => exact absurd rfl hne
  | cons x xs =>
    exact le_foldl_min b xs x (hm x (List.mem_cons_self x xs)) fun v hv =>
      hm v (List.mem_cons_of_mem x hv)

lemma getD_range_map (f : Nat → ℚ) (n i : Nat) (h : i < n) :
    ((List.range n).map f).getD i 0 = f i := by
  rw [List.getD_eq_getElem?_getD, List.getElem?_map, List.getElem?_range h]
  rfl

/-! ## Claims -/

/-- C4 (amended): the shape check accepts iff the tensor shape equals the
declared `(X, Y, Z, numFrames)` tuple or the single-frame exemption holds
(frame dimension `1` and the first two spatial dimensions matching);
otherwise it fails with a `ShapeMismatch` error carrying both shapes; and
reversing X/Y/Z in the declared shape while keeping the tensor shape fixed
fails whenever `X ≠ Z` (when `X = Z` the reversed declaration coincides
with the original and is accepted, refuting the unconditional claim). -/
theorem shapeReconciler_spec :
    (∀ s d : Nat × Nat × Nat × Nat,
        shapeReconciler s d = .ok () ↔
          (s = d ∨ (s.2.2.2 = 1 ∧ s.1 = d.1 ∧ s.2.1 = d.2.1))) ∧
    (∀ s d : Nat × Nat × Nat × Nat,
        ¬(s = d ∨ (s.2.2.2 = 1 ∧ s.1 = d.1 ∧ s.2.1 = d.2.1)) →
          shapeReconciler s d = .error (.shapeMismatch d s)) ∧
    (∀ x y z f : Nat, x ≠ z →
        shapeReconciler (x, y, z, f) (z, y, x, f) =
          .error (.shapeMismatch (z, y, x, f) (x, y, z, f))) := by
  have hrej : ∀ s d : Nat × Nat × Nat × Nat,
      ¬(s = d ∨ (s.2.2.2 = 1 ∧ s.1 = d.1 ∧ s.2.1 = d.2.1)) →
        shapeReconciler s d = .error (.shapeMismatch d s) := by
    intro s d h
    rw [not_or] at h
    unfold shapeReconciler
    rw [if_pos ⟨h.1, h.2⟩]
  refine ⟨?_, hrej, ?_⟩
  · intro s d
    unfold shapeReconciler
    split
    · rename_i h
      simp only [reduceCtorEq, false_iff, not_or]
      exact h
    · rename_i h
      rw [Decidable.not_and_iff_or_not, not_not, not_not] at h
      simpa using h
  · intro x y z f hxz
    apply hrej
    rintro (h | ⟨-, h1, -⟩)
    · exact hxz (congrArg Prod.fst h)
    · exact hxz h1

/-- Witness for `shapeReconciler_spec` at concrete shapes. -/
theorem shapeReconciler_spec_witness :
    shapeReconciler (1, 2, 3, 1) (3, 2, 1, 1) =
        .error (.shapeMismatch (3, 2, 1, 1) (1, 2, 3, 1)) ∧
      shapeReconciler (4, 5, 6, 7) (4, 5, 6, 7) = .ok () :=
  ⟨shapeReconciler_spec.2.2 1 2 3 1 (by decide),
    (shapeReconciler_spec.1 (4, 5, 6, 7) (4, 5, 6, 7)).mpr (Or.inl rfl)⟩

/-- Counterexample to C4 as stated: for a cubic geometry (here
`X = Y = Z = 2`, two frames) reversing X/Y/Z in the declared shape leaves
it unchanged, so the check accepts instead of failing. -/
theorem shapeReconciler_reversal_counterexample :
    shapeReconciler (2, 2, 2, 2) (reverseXYZ (2, 2, 2, 2)) = .ok () := by
  rfl

/-- C7 (confirmed): for every frame index `i`, when
`softwareVersion ≥ 73` the prompts/randoms entries are
`rate × frameDuration × 60` from sub-header `i`, and when
`softwareVersion < 73` they are `0` regardless of the rate fields. -/
theorem prompts_randoms_spec :
    ∀ (mh : MainHeader) (shs : List SubHeader) (n i : Nat),
      i < n → ∀ hlen : i < shs.length,
        (73 ≤ mh.SW_VERSION.getD 0 →
          (promptsOf mh shs n).getD i 0 =
              (shs.get ⟨i, hlen⟩).PROMPT_RATE * (shs.get ⟨i, hlen⟩).FRAME_DURATION * 60 ∧
            (randomsOf mh shs n).getD i 0 =
              (shs.get ⟨i, hlen⟩).RANDOM_RATE * (shs.get ⟨i, hlen⟩).FRAME_DURATION * 60) ∧
        (mh.SW_VERSION.getD 0 < 73 →
          (promptsOf mh shs n).getD i 0 = 0 ∧ (randomsOf mh shs n).getD i 0 = 0) := by
  intro mh shs n i hn hlen
  have hget : shs.getD i default = shs.get ⟨i, hlen⟩ := by
    rw [List.getD_eq_getElem?_getD, List.getElem?_eq_getElem hlen]
    rfl
  constructor
  · intro hsw
    unfold promptsOf randomsOf
    rw [getD_range_map _ _ _ hn, getD_range_map _ _ _ hn, if_pos hsw, if_pos hsw, hget]
    exact ⟨rfl, rfl⟩
  · intro hsw
    unfold promptsOf randomsOf
    rw [getD_range_map _ _ _ hn, getD_range_map _ _ _ hn,
      if_neg (not_le.mpr hsw), if_neg (not_le.mpr hsw)]
    exact ⟨rfl, rfl⟩

/-- Witness for `prompts_randoms_spec`: a software-version-72 header zeroes
the sequences, a version-73 header computes `rate × duration × 60`. -/
theorem prompts_randoms_spec_witness :
    ((promptsOf ⟨1, some 72, 1⟩ [⟨2, 2, 2, 2, 2, 2, 1, 0, 3, 5, 7⟩] 1).getD 0 0 = 0 ∧
        (randomsOf ⟨1, some 72, 1⟩ [⟨2, 2, 2, 2, 2, 2, 1, 0, 3, 5, 7⟩] 1).getD 0 0 = 0) ∧
      ((promptsOf ⟨1, some 73, 1⟩ [⟨2, 2, 2, 2, 2, 2, 1, 0, 3, 5, 7⟩] 1).getD 0 0 = 5 * 3 * 60 ∧
        (randomsOf ⟨1, some 73, 1⟩ [⟨2, 2, 2, 2, 2, 2, 1, 0, 3, 5, 7⟩] 1).getD 0 0 = 7 * 3 * 60) :=
  ⟨(prompts_randoms_spec ⟨1, some 72, 1⟩ [⟨2, 2, 2, 2, 2, 2, 1, 0, 3, 5, 7⟩] 1 0
      (by decide) (by decide)).2 (by decide),
    (prompts_randoms_spec ⟨1, some 73, 1⟩ [⟨2, 2, 2, 2, 2, 2, 1, 0, 3, 5, 7⟩] 1 0
      (by decide) (by decide)).1 (by decide)⟩

/-- C1 (amended): for an input element list with minimum `-40000` and
maximum `10000` (after per-frame scaling, before the global rescale), the
second-pass correction does NOT trigger — the post-first-pass minimum is
`-40000 / (10000 × 32767)`, far above `-32768`, because line 95 divides by
`max_image * 32767` — and every element of the resulting intermediate
tensor has absolute value ≤ 32767. -/
theorem rescaler_scenario3 (elems : List ℚ) (hmax : maxl elems = 10000)
    (hmin : minl elems = -40000) :
    ¬ minl (firstPass elems) < -32768 ∧
      ∀ v ∈ (intensityRescaler elems).1, |v| ≤ 32767 := by
  have hne : elems ≠ [] := by
    intro h
    rw [h] at hmax
    norm_num [maxl] at hmax
  have hD : maxl elems * 32767 = 327670000 := by rw [hmax]; norm_num
  have hmem : ∀ v ∈ firstPass elems,
      -40000 / 327670000 ≤ v ∧ v ≤ 10000 / 327670000 := by
    intro v hv
    rcases List.mem_map.mp hv with ⟨w, hw, rfl⟩
    rw [hD]
    have hpos : (0 : ℚ) < 327670000 := by norm_num
    constructor
    · exact (div_le_div_iff_of_pos_right hpos).mpr (hmin ▸ minl_le_of_mem hw)
    · exact (div_le_div_iff_of_pos_right hpos).mpr (hmax ▸ le_maxl_of_mem hw)
  have hfpne : firstPass elems ≠ [] := by
    simpa [firstPass] using hne
  have hlow : (-40000 : ℚ) / 327670000 ≤ minl (firstPass elems) :=
    le_minl _ _ hfpne fun v hv => (hmem v hv).1
  have hminfp : ¬ minl (firstPass elems) < -32768 := by
    intro habs
    have h1 : (-40000 : ℚ) / 327670000 < -32768 := lt_of_le_of_lt hlow habs
    norm_num at h1
  refine ⟨hminfp, ?_⟩
  have h1 : (intensityRescaler elems).1 = firstPass elems := by
    unfold intensityRescaler
    rw [if_neg hminfp]
  rw [h1]
  intro v hv
  rcases hmem v hv with ⟨hl, hu⟩
  rw [abs_le]
  have hb1 : (-32767 : ℚ) ≤ -40000 / 327670000 := by norm_num
  have hb2 : (10000 : ℚ) / 327670000 ≤ 32767 := by norm_num
  exact ⟨le_trans hb1 hl, le_trans hu hb2⟩

/-- Witness for `rescaler_scenario3` on the two-element list
`[-40000, 10000]`. -/
theorem rescaler_scenario3_witness :
    maxl [(-40000 : ℚ), 10000] = 10000 ∧ minl [(-40000 : ℚ), 10000] = -40000 ∧
      (¬ minl (firstPass [(-40000 : ℚ), 10000]) < -32768 ∧
        ∀ v ∈ (intensityRescaler [(-40000 : ℚ), 10000]).1, |v| ≤ 32767) := by
  have hmax : maxl [(-40000 : ℚ), 10000] = 10000 := by
    simp only [maxl, List.foldl_cons, List.foldl_nil]
    rw [max_eq_right (by norm_num : (-40000 : ℚ) ≤ 10000)]
  have hmin : minl [(-40000 : ℚ), 10000] = -40000 := by
    simp only [minl, List.foldl_cons, List.foldl_nil]
    rw [min_eq_left (by norm_num : (-40000 : ℚ) ≤ 10000)]
  exact ⟨hmax, hmin, rescaler_scenario3 _ hmax hmin⟩

/-- Counterexample to C1 as stated: on the element list `[-40000, 10000]`
the post-first-pass minimum is `-40000 / (10000 × 32767) ≈ -0.00012`, so
`minVal < -32768` is false and the second-pass correction does not
trigger. -/
theorem rescaler_scenario3_counterexample :
    ¬ minl (firstPass [(-40000 : ℚ), 10000]) < -32768 := by
  have hfp : firstPass [(-40000 : ℚ), 10000] =
      [(-40000 : ℚ) / 327670000, 10000 / 327670000] := by
    have hmax : maxl [(-40000 : ℚ), 10000] = 10000 := by
      simp only [maxl, List.foldl_cons, List.foldl_nil]
      rw [max_eq_right (by norm_num : (-40000 : ℚ) ≤ 10000)]
    simp only [firstPass, hmax, List.map_cons, List.map_nil]
    norm_num
  rw [hfp]
  simp only [minl, List.foldl_cons, List.foldl_nil]
  rw [min_eq_left (by norm_num : (-40000 : ℚ) / 327670000 ≤ 10000 / 327670000)]
  norm_num

/-- C3 (amended): multiplying the input element list by a positive
constant `k` (with a nonzero maximum, so no division by zero occurs)
leaves the rescaled intermediate tensor unchanged and multiplies the
scale factor by `k` — not divides, as the claim stated. -/
theorem rescaler_scale_invariance (elems : List ℚ) (k : ℚ) (hk : 0 < k)
    (_hmax : maxl elems ≠ 0) :
    (intensityRescaler (elems.map fun v => k * v)).1 = (intensityRescaler elems).1 ∧
      (intensityRescaler (elems.map fun v => k * v)).2 = k * (intensityRescaler elems).2 := by
  have hk0 : k ≠ 0 := ne_of_gt hk
  have hmaxk : maxl (elems.map fun v => k * v) = k * maxl elems :=
    maxl_map_mul k hk.le elems
  have hfp : firstPass (elems.map fun v => k * v) = firstPass elems := by
    unfold firstPass
    rw [hmaxk, List.map_map]
    apply List.map_congr_left
    intro v _
    show k * v / (k * maxl elems * 32767) = v / (maxl elems * 32767)
    rw [mul_assoc]
    exact mul_div_mul_left v (maxl elems * 32767) hk0
  unfold intensityRescaler
  rw [hfp, hmaxk]
  by_cases hb : minl (firstPass elems) < -32768
  · rw [if_pos hb, if_pos hb]
    exact ⟨rfl, by ring⟩
  · rw [if_neg hb, if_neg hb]
    exact ⟨rfl, by ring⟩

/-- Witness for `rescaler_scale_invariance` at `elems = [1, 2]`, `k = 3`. -/
theorem rescaler_scale_invariance_witness :
    (0 : ℚ) < 3 ∧ maxl [(1 : ℚ), 2] ≠ 0 ∧
      ((intensityRescaler (([(1 : ℚ), 2]).map fun v => 3 * v)).1 =
          (intensityRescaler [(1 : ℚ), 2]).1 ∧
        (intensityRescaler (([(1 : ℚ), 2]).map fun v => 3 * v)).2 =
          3 * (intensityRescaler [(1 : ℚ), 2]).2) := by
  have hmax : maxl [(1 : ℚ), 2] ≠ 0 := by
    simp only [maxl, List.foldl_cons, List.foldl_nil]
    rw [max_eq_right (by norm_num : (1 : ℚ) ≤ 2)]
    norm_num
  exact ⟨by norm_num, hmax, rescaler_scale_invariance _ 3 (by norm_num) hmax⟩

/-- Counterexample to C3 as stated: for the element list `[1, 2]` and
`k = 2` the scale factor of the scaled input is `4 / 32767`, which is not
the original scale `2 / 32767` divided by `2`. -/
theorem rescaler_scale_invariance_counterexample :
    (intensityRescaler (([(1 : ℚ), 2]).map fun v => 2 * v)).2 ≠
      (intensityRescaler [(1 : ℚ), 2]).2 / 2 := by
  have e1 : maxl [(1 : ℚ), 2] = 2 := by
    simp only [maxl, List.foldl_cons, List.foldl_nil]
    rw [max_eq_right (by norm_num : (1 : ℚ) ≤ 2)]
  have e2 : maxl [(2 : ℚ), 4] = 4 := by
    simp only [maxl, List.foldl_cons, List.foldl_nil]
    rw [max_eq_right (by norm_num : (2 : ℚ) ≤ 4)]
  have m1 : ¬ minl (firstPass [(1 : ℚ), 2]) < -32768 := by
    simp only [firstPass, e1, List.map_cons, List.map_nil, minl, List.foldl_cons,
      List.foldl_nil]
    rw [min_eq_left (by norm_num : (1 : ℚ) / (2 * 32767) ≤ 2 / (2 * 32767))]
    norm_num
  have m2 : ¬ minl (firstPass [(2 : ℚ), 4]) < -32768 := by
    simp only [firstPass, e2, List.map_cons, List.map_nil, minl, List.foldl_cons,
      List.foldl_nil]
    rw [min_eq_left (by norm_num : (2 : ℚ) / (4 * 32767) ≤ 4 / (4 * 32767))]
    norm_num
  have hmap : ([(1 : ℚ), 2]).map (fun v => 2 * v) = [(2 : ℚ), 4] := by norm_num
  rw [hmap]
  unfold intensityRescaler
  rw [if_neg m1, if_neg m2, e1, e2]
  norm_num

/-- The sub-header of spec Scenario 5: grid 128×128×63, pixel sizes
`(2.0, 2.0, 2.5)` (ECAT cm units); the remaining per-frame fields are
irrelevant to the header geometry. -/
def scenarioSub : SubHeader :=
  ⟨128, 128, 63, 2, 2, 5 / 2, 1, 0, 0, 0, 0⟩

/-- C5 (code bug): line 156 computes the correct z translation offset
(`-775` for the Scenario-5 geometry) but writes it to the misspelled,
nonexistent field `qoffset_Z`, raising an uncaught `KeyError`: the
conversion aborts there, the `srow` assignments of lines 159-161 never
run, and no header or result is ever produced — so the claimed final
state (`qoffset_z = -775` appearing as the `srow_z` translation entry)
never exists.  At the abort point `qoffset_z` and `srow_z` still hold
their construction values (zero, with no affine supplied), and every
conversion on this geometry ends in an error rather than a result. -/
theorem qoffset_z_never_set :
    ∀ psMin psMax : ℚ,
      qoffsetZOf scenarioSub = -775 ∧
        (headerStateBeforeCrash scenarioSub none psMin psMax).qoffset_z = 0 ∧
        (headerStateBeforeCrash scenarioSub none psMin psMax).srow_z = [0, 0, 0, 0] ∧
        ∀ (mh : MainHeader) (rest : List SubHeader) (data : Tensor) (nf : String)
          (tz : Option String),
          convCompleted (ecat2niiParsed mh (scenarioSub :: rest) data none nf tz) = false := by
  intro psMin psMax
  refine ⟨by norm_num [qoffsetZOf, scenarioSub], rfl, rfl, ?_⟩
  intro mh rest data nf tz
  unfold ecat2niiParsed
  cases h : shapeReconciler data.shape
      (scenarioSub.X_DIMENSION, scenarioSub.Y_DIMENSION, scenarioSub.Z_DIMENSION,
        mh.NUM_FRAMES) with
  | error e =>
    simp only [h]
    rfl
  | ok u =>
    simp only [h]
    split <;> rfl

/-- C6 (amended): for the Scenario-5 geometry the header derivation —
the `pixdim` assignment of lines 117-125 and the `qoffset_x` assignment
of lines 150-152, both of which execute before the line-156 abort —
yields `pixdim[1..3] = [20, 20, 25]` and `qoffset_x = -1270`, the value
of the formula of the code `-1 × ((128 × 2.0 × 10 / 2) − 2.0 × 5)`, not
the `-1180` the claim computes by applying the half-voxel term to the
×10-scaled pixel size. -/
theorem scenario5_pixdim_qoffset :
    ∀ (affine : Option Affine) (psMin psMax : ℚ),
      (headerStateBeforeCrash scenarioSub affine psMin psMax).pixdim =
          [1, 20, 20, 25, 0, 0, 0, 0] ∧
        (headerStateBeforeCrash scenarioSub affine psMin psMax).qoffset_x = -1270 := by
  intro affine psMin psMax
  constructor
  · show pixdimOf scenarioSub = _
    norm_num [pixdimOf, scenarioSub]
  · show qoffsetXOf scenarioSub = _
    norm_num [qoffsetXOf, scenarioSub]

/-- Counterexample to C6 as stated: the derived `qoffset_x` for the
Scenario-5 geometry is not `-1180`; the expression of the code evaluates to
`-1270`. -/
theorem scenario5_qoffset_counterexample :
    (headerStateBeforeCrash scenarioSub none 0 0).qoffset_x ≠ -1180 := by
  show qoffsetXOf scenarioSub ≠ -1180
  norm_num [qoffsetXOf, scenarioSub]

lemma shapeReconciler_error_eq {s d : Nat × Nat × Nat × Nat} {e : ConvErr}
    (h : shapeReconciler s d = .error e) : e = .shapeMismatch d s := by
  unfold shapeReconciler at h
  split at h
  · injection h with h
    exact h.symm
  · cases h

/-- Discriminator: does the conversion outcome carry the
`EmptyOrZeroImage` error of the error taxonomy of the specification? -/
def isEmptyOrZeroErr : Except ConvErr ConvResult → Bool
  | .error .emptyOrZeroImage => true
  | _ => false

/-- C2 (code bug): the conversion never raises `EmptyOrZeroImage`, for any
input whatsoever — in particular not for an all-zero voxel tensor.  The
source has no zero-divisor check: on an all-zero tensor line 95 divides by
`0 × 32767` (numpy emits NaN values and a warning, but no exception) and
the pipeline continues into header synthesis, where it ultimately dies at
the unrelated line-156 `KeyError`. -/
theorem no_emptyOrZeroImage_check :
    ∀ (mh : MainHeader) (shs : List SubHeader) (data : Tensor)
      (affine : Option Affine) (nf : String) (tz : Option String),
      isEmptyOrZeroErr (ecat2niiParsed mh shs data affine nf tz) = false := by
  intro mh shs data affine nf tz
  unfold ecat2niiParsed
  cases shs with
  | nil => rfl
  | cons sub0 rest =>
    cases h : shapeReconciler data.shape
        (sub0.X_DIMENSION, sub0.Y_DIMENSION, sub0.Z_DIMENSION, mh.NUM_FRAMES) with
    | error e =>
      simp only [h]
      have he : e = .shapeMismatch
          (sub0.X_DIMENSION, sub0.Y_DIMENSION, sub0.Z_DIMENSION, mh.NUM_FRAMES)
          data.shape := shapeReconciler_error_eq h
      rw [he]
      rfl
    | ok u =>
      simp only [h]
      split <;> rfl

/-- C10 (confirmed): the returned header, rescaled data and every other
returned artefact except the advisory-log flag are identical for any two
values of the optional `TimeZero` metadata — `TimeZero` only selects the
advisory log message of lines 40-45 and influences nothing that follows
(in the current source every run ends in the same exception regardless of
`TimeZero`). -/
theorem timeZero_noninterference :
    ∀ (mh : MainHeader) (shs : List SubHeader) (data : Tensor)
      (affine : Option Affine) (nf : String) (t1 t2 : Option String),
      Except.map resultCore (ecat2niiParsed mh shs data affine nf t1) =
        Except.map resultCore (ecat2niiParsed mh shs data affine nf t2) := by
  intro mh shs data affine nf t1 t2
  unfold ecat2niiParsed
  rfl

/-- C8 (amended): supplying an external affine does not bypass the affine
derivation.  The `Nifti1Image` constructor (line 104) writes the supplied
affine into the header `srow`/`qoffset` fields, but lines 150-155 then
overwrite `qoffset_x` and `qoffset_y` with the offsets derived from
`SubHeader[0]` geometry — the derivation runs regardless of the supplied
affine — and the conversion then aborts at the line-156 `KeyError`, so no
output affine (indeed no output at all) is ever returned. -/
theorem affine_override_not_bypassing :
    ∀ (sub0 : SubHeader) (A : Affine) (psMin psMax : ℚ),
      (headerStateBeforeCrash sub0 (some A) psMin psMax).qoffset_x = qoffsetXOf sub0 ∧
        (headerStateBeforeCrash sub0 (some A) psMin psMax).qoffset_y = qoffsetYOf sub0 ∧
        (headerStateBeforeCrash sub0 (some A) psMin psMax).srow_x = affineRow A 0 ∧
        ∀ (mh : MainHeader) (rest : List SubHeader) (data : Tensor) (nf : String)
          (tz : Option String),
          convCompleted (ecat2niiParsed mh (sub0 :: rest) data (some A) nf tz) = false := by
  intro sub0 A psMin psMax
  refine ⟨rfl, rfl, rfl, ?_⟩
  intro mh rest data nf tz
  unfold ecat2niiParsed
  cases h : shapeReconciler data.shape
      (sub0.X_DIMENSION, sub0.Y_DIMENSION, sub0.Z_DIMENSION, mh.NUM_FRAMES) with
  | error e =>
    simp only [h]
    rfl
  | ok u =>
    simp only [h]
    split <;> rfl

/-- Main header for the concrete affine-override run: one frame,
software version 73, calibration factor 1. -/
def affMH : MainHeader := ⟨1, some 73, 1⟩

/-- Sub-header for the concrete affine-override run: grid 2×2×2, pixel
sizes 2, scale factor 1. -/
def affSub : SubHeader := ⟨2, 2, 2, 2, 2, 2, 1, 0, 0, 0, 0⟩

/-- Constant-one 2×2×2×1 voxel tensor. -/
def affData : Tensor := ⟨2, 2, 2, 1, fun _ _ _ _ => 1⟩

/-- A supplied affine whose translation column is `(7, 7, 7)`. -/
def affA : Affine := [[1, 0, 0, 7], [0, 1, 0, 7], [0, 0, 1, 7], [0, 0, 0, 1]]

/-- Counterexample to C8 as stated: with the supplied affine `affA`
(x-translation `7`), the derivation is not bypassed — the header state at
the abort point carries the derived `qoffset_x = -10`, not the supplied
`7` — and the conversion terminates in the line-156 `KeyError` instead of
returning the supplied affine (or any output) unchanged. -/
theorem affine_override_counterexample :
    (headerStateBeforeCrash affSub (some affA) 0 0).qoffset_x = -10 ∧
      ecat2niiParsed affMH [affSub] affData (some affA) "out.nii" none =
        .error .keyErrorQoffsetZ ∧
      ((-10 : ℚ) ≠ 7) := by
  refine ⟨?_, rfl, by norm_num⟩
  show qoffsetXOf affSub = -10
  norm_num [qoffsetXOf, affSub]

/-- Arguments with nothing supplied at all and an empty `nifti_file`. -/
def invalidArgsEmpty : Args := ⟨none, none, none, none, "", none, none⟩

/-- Arguments with nothing supplied but a non-empty `nifti_file`. -/
def invalidArgsNamed : Args := ⟨none, none, none, none, "out.nii", none, none⟩

/-- C9 (amended): when a non-empty `nifti_file` is supplied, every
argument combination that is neither a raw-file source nor a complete
pre-parsed triple fails with the `InvalidInputCombination` error before
any ECAT data processing — but only after the output-path resolution of
lines 19-24, which runs first. -/
theorem invalid_combination_spec :
    ∀ a : Args, a.nifti_file ≠ "" → validCombo a = false →
      ecat2nii a = .error .invalidInputCombination := by
  intro a h1 h2
  have hres : resolveInputs a = .error .invalidInputCombination := by
    unfold resolveInputs
    unfold validCombo at h2
    rcases a with ⟨mh, shs, px, f, nf, af, tz⟩
    rcases mh with _ | mh <;> rcases shs with _ | shs <;> rcases px with _ | px <;>
      rcases f with _ | f <;> simp_all
  unfold ecat2nii resolveNiftiFile
  rw [if_neg h1]
  simp only [hres]

/-- Witness for `invalid_combination_spec`: all-`None` ECAT arguments with
an explicit output path. -/
theorem invalid_combination_spec_witness :
    ("out.nii" ≠ "") ∧ validCombo invalidArgsNamed = false ∧
      ecat2nii invalidArgsNamed = .error .invalidInputCombination :=
  ⟨by decide, rfl, invalid_combination_spec invalidArgsNamed (by decide) rfl⟩

/-- Counterexample to C9 as stated: with every argument left at its
default (`nifti_file` empty, no ECAT source at all) the call fails in the
output-path prologue — `os.path.splitext(None)` raises `TypeError` —
before the input-combination check is ever reached, so the failure is not
an `InvalidInputCombination` error. -/
theorem invalid_combination_counterexample :
    ecat2nii invalidArgsEmpty = .error .typeErrorSplitextNone ∧
      ConvErr.typeErrorSplitextNone ≠ ConvErr.invalidInputCombination := by
  constructor
  · rfl
  · simp

end EcatToNii
